import Mathlib

/-!
Verification of the SIREN micro-services repository core logic.

Embedded components (shallow embedding, translated from the Python source):
* Pagination Planner and Collection View Builder
  (services/api-spark/main.py: create_pagination;
   services/api-mysql/main.py: create_hydra_view, get_entreprises_by_activite).
* Bulk-load pipeline
  (import_csv_to_mysql.py: COLUMN_MAPPING, import_csv, insert_batch),
  with the MySQL store modelled as a set of primary keys (the siren column is
  the primary key, see services/api-mysql/models.py) and INSERT IGNORE
  modelled as key-conditional insertion.
-/

/-! ## Pagination Planner (api-spark/main.py and api-mysql/main.py) -/

/-- HydraView models schemas.HydraView of api-mysql: the JSON-LD partial
collection view with its four optional navigation links, all absent (None)
unless set by create_hydra_view.  idUrl and typeName stand for the JSON
fields "@id" and "@type". -/
structure HydraView where
  idUrl : String
  typeName : String
  first : Option String := none
  previous : Option String := none
  next : Option String := none
  last : Option String := none
  deriving Repr, DecidableEq

/-- The function create_hydra_view of services/api-mysql/main.py (lines 18-41):
returns None when total_pages <= 0, otherwise builds the view and sets
first/previous exactly when page > 1 and next/last exactly when
page < total_pages. -/
def create_hydra_view (base_url : String) (page limit total_pages : Nat) :
    Option HydraView :=
  if total_pages ≤ 0 then
    none
  else
    some
      { idUrl := base_url ++ "?page=" ++ toString page ++ "&limit=" ++ toString limit
        typeName := "hydra:PartialCollectionView"
        first :=
          if 1 < page then
            some (base_url ++ "?page=1&limit=" ++ toString limit)
          else none
        previous :=
          if 1 < page then
            some (base_url ++ "?page=" ++ toString (page - 1) ++ "&limit=" ++ toString limit)
          else none
        next :=
          if page < total_pages then
            some (base_url ++ "?page=" ++ toString (page + 1) ++ "&limit=" ++ toString limit)
          else none
        last :=
          if page < total_pages then
            some (base_url ++ "?page=" ++ toString total_pages ++ "&limit=" ++ toString limit)
          else none }

/-- Embedding of the expression `math.ceil(total / limit) if total > 0 else 1`
computing total_pages, shared verbatim by api-spark/main.py line 83 and
api-mysql/main.py lines 218 and 305.  For natural total and limit with
limit > 0, the exact ceiling of the rational total/limit is
(total + limit - 1) / limit in natural division. -/
def total_pages_code (total limit : Nat) : Nat :=
  if 0 < total then (total + limit - 1) / limit else 1

/-- SparkView models the pagination["view"] dictionary built by
create_pagination of api-spark/main.py (lines 95-106). -/
structure SparkView where
  idUrl : String
  typeName : String
  first : Option String := none
  previous : Option String := none
  next : Option String := none
  last : Option String := none
  deriving Repr, DecidableEq

/-- SparkPagination models the pagination dictionary returned by
create_pagination of api-spark/main.py (lines 85-108). -/
structure SparkPagination where
  page : Nat
  limit : Nat
  totalItems : Nat
  total_pages : Nat
  has_next : Bool
  has_prev : Bool
  view : Option SparkView
  deriving Repr, DecidableEq

/-- The function create_pagination of services/api-spark/main.py (lines 81-108):
computes total_pages, the boundary flags, and (when base_url is non-empty,
mirroring Python string truthiness) the view with its conditional links. -/
def create_pagination (page limit total : Nat) (base_url : String) : SparkPagination :=
  let total_pages := total_pages_code total limit
  { page := page
    limit := limit
    totalItems := total
    total_pages := total_pages
    has_next := decide (page < total_pages)
    has_prev := decide (1 < page)
    view :=
      if base_url ≠ "" then
        some
          { idUrl := base_url ++ "?page=" ++ toString page ++ "&limit=" ++ toString limit
            typeName := "hydra:PartialCollectionView"
            first :=
              if 1 < page then
                some (base_url ++ "?page=1&limit=" ++ toString limit)
              else none
            previous :=
              if 1 < page then
                some (base_url ++ "?page=" ++ toString (page - 1) ++ "&limit=" ++ toString limit)
              else none
            next :=
              if page < total_pages then
                some (base_url ++ "?page=" ++ toString (page + 1) ++ "&limit=" ++ toString limit)
              else none
            last :=
              if page < total_pages then
                some (base_url ++ "?page=" ++ toString total_pages ++ "&limit=" ++ toString limit)
              else none }
      else none }

/-- Specification-side ceiling of a/b, written as in the spec sentence
"totalPages = ceil(totalItems/limit)": quotient plus one when the division
is inexact. -/
def ceil_spec (a b : Nat) : Nat :=
  a / b + if a % b = 0 then 0 else 1

/-- Arithmetic bridge: the code's (a + b - 1) / b equals the specification
ceiling for positive a and b. -/
theorem ceil_div_eq (a b : Nat) (ha : 0 < a) (hb : 0 < b) :
    (a + b - 1) / b = ceil_spec a b := by
  rcases a with _ | n
  · exact absurd ha (by simp)
  · have h1 : n + 1 + b - 1 = n + b := by omega
    rw [ceil_spec, h1, Nat.add_div_right n hb, Nat.succ_div]
    by_cases hd : b ∣ n + 1
    · have hm : (n + 1) % b = 0 := Nat.dvd_iff_mod_eq_zero.1 hd
      simp [hd, hm]
    · have hm : (n + 1) % b ≠ 0 := fun h => hd (Nat.dvd_iff_mod_eq_zero.2 h)
      simp [hd, hm]

/-! ## Collection View Builder (api-mysql/main.py) -/

/-- UniteLegale models one row of the unite_legale table as declared in
services/api-mysql/models.py; only the columns the specified endpoints
read are kept.  The siren column is the primary key. -/
structure UniteLegale where
  siren : String
  nom_unite_legale : Option String := none
  denomination_unite_legale : Option String := none
  activite_principale_unite_legale : Option String := none
  deriving Repr, DecidableEq

/-- PaginationMeta models schemas.PaginationMeta of api-mysql as populated in
main.py lines 223-231. -/
structure PaginationMeta where
  page : Nat
  limit : Nat
  totalItems : Nat
  total_pages : Nat
  has_next : Bool
  has_prev : Bool
  view : Option HydraView
  deriving Repr, DecidableEq

/-- EntrepriseListJSONLD models the response envelope built in
api-mysql/main.py lines 233-240 (and identically at lines 320-327); the
itemListElement keeps the domain rows, the per-item JSON-LD conversion
being presentation glue outside the specified core. -/
structure EntrepriseListJSONLD where
  numberOfItems : Nat
  totalItems : Nat
  itemListElement : List UniteLegale
  pagination : PaginationMeta
  deriving Repr, DecidableEq

/-- The endpoint get_entreprises_by_activite of services/api-mysql/main.py
(lines 180-240), with the database abstracted as the ordered list of rows the
store holds: offset = (page-1)*limit, total = count of rows matching the
activity code, items = the offset/limit slice of the matching rows, then the
pagination metadata and the response envelope exactly as built by the code. -/
def get_entreprises_by_activite (db : List UniteLegale) (code : String)
    (page limit : Nat) (base_url : String) : EntrepriseListJSONLD :=
  let offset := (page - 1) * limit
  let matching := db.filter (fun e => e.activite_principale_unite_legale == some code)
  let total := matching.length
  let entreprises := (matching.drop offset).take limit
  let total_pages := total_pages_code total limit
  let hydra_view := create_hydra_view base_url page limit total_pages
  { numberOfItems := entreprises.length
    totalItems := total
    itemListElement := entreprises
    pagination :=
      { page := page
        limit := limit
        totalItems := total
        total_pages := total_pages
        has_next := decide (page < total_pages)
        has_prev := decide (1 < page)
        view := hydra_view } }

/-! ## Claims C3, C4, C9 -/

/-- Claim C3: the Pagination Planner's numeric rule.  For all totalItems ≥ 0
and limit ≥ 1, total_pages equals 1 when totalItems = 0 and
ceil(totalItems/limit) otherwise, and for every page in [1, totalPages] the
computed flags satisfy has_next = (page < total_pages) and
has_prev = (page > 1). -/
theorem pagination_numeric_rule (total limit page : Nat) (base_url : String)
    (hl : 1 ≤ limit) (hp1 : 1 ≤ page)
    (hp2 : page ≤ (create_pagination page limit total base_url).total_pages) :
    (create_pagination page limit total base_url).total_pages
        = (if total = 0 then 1 else ceil_spec total limit)
      ∧ (create_pagination page limit total base_url).has_next
        = decide (page < (create_pagination page limit total base_url).total_pages)
      ∧ (create_pagination page limit total base_url).has_prev = decide (1 < page) := by
  refine ⟨?_, rfl, rfl⟩
  show total_pages_code total limit = _
  rcases Nat.eq_zero_or_pos total with h0 | h0
  · simp [total_pages_code, h0]
  · rw [total_pages_code, if_pos h0, if_neg (by omega), ceil_div_eq total limit h0 hl]

/-- Witness for C3 at the spec's worked example totalItems = 45, limit = 20,
page = 3: totalPages = 3, has_next = false, has_prev = true. -/
theorem pagination_numeric_rule_witness :
    (create_pagination 3 20 45 "u").total_pages = (if 45 = 0 then 1 else ceil_spec 45 20)
      ∧ (create_pagination 3 20 45 "u").has_next
        = decide (3 < (create_pagination 3 20 45 "u").total_pages)
      ∧ (create_pagination 3 20 45 "u").has_prev = decide (1 < 3) :=
  pagination_numeric_rule 45 20 3 "u" (by decide) (by decide) (by decide)

/-- Claim C4: navigation-link population.  For every page ≥ 1 and
totalPages ≥ 1 — including a page beyond totalPages, which is accepted and
never an error — create_hydra_view returns a view, and that view carries the
first and previous links exactly when page > 1 and the next and last links
exactly when page < totalPages. -/
theorem hydra_link_population (base_url : String) (page limit tp : Nat)
    (hp : 1 ≤ page) (ht : 1 ≤ tp) :
    (create_hydra_view base_url page limit tp).isSome = true
      ∧ (create_hydra_view base_url page limit tp).map (fun v => v.first.isSome)
        = some (decide (1 < page))
      ∧ (create_hydra_view base_url page limit tp).map (fun v => v.previous.isSome)
        = some (decide (1 < page))
      ∧ (create_hydra_view base_url page limit tp).map (fun v => v.next.isSome)
        = some (decide (page < tp))
      ∧ (create_hydra_view base_url page limit tp).map (fun v => v.last.isSome)
        = some (decide (page < tp)) := by
  have hne : ¬ tp ≤ 0 := by omega
  have hsome : ∀ (c : Prop) [Decidable c] (x : String),
      (if c then some x else none).isSome = decide c := by
    intro c _ x
    split <;> simp_all
  refine ⟨?_, ?_, ?_, ?_, ?_⟩
  · simp only [create_hydra_view, if_neg hne, Option.isSome_some]
  all_goals
    simp only [create_hydra_view, if_neg hne, Option.map_some']
    exact congrArg some (hsome _ _)

/-- Witness for C4 at the spec's edge example page = 5 beyond totalPages = 2:
the view exists (no error), first/previous are present, next/last absent. -/
theorem hydra_link_population_witness :
    (create_hydra_view "u" 5 20 2).isSome = true
      ∧ (create_hydra_view "u" 5 20 2).map (fun v => v.first.isSome) = some true
      ∧ (create_hydra_view "u" 5 20 2).map (fun v => v.previous.isSome) = some true
      ∧ (create_hydra_view "u" 5 20 2).map (fun v => v.next.isSome) = some false
      ∧ (create_hydra_view "u" 5 20 2).map (fun v => v.last.isSome) = some false :=
  hydra_link_population "u" 5 20 2 (by decide) (by decide)

/-- Claim C9: Collection View construction is pure composition.  For every
store content, activity code, page, limit and base URL, the built view's
numberOfItems equals the length of this page's item list (which is at most
limit, and may be smaller on the last page), totalItems is the matching-row
count passed through unchanged, and the item list is exactly the
offset/limit slice of the matching rows in store order. -/
theorem collection_view_pure_composition (db : List UniteLegale) (code : String)
    (page limit : Nat) (base_url : String) :
    (get_entreprises_by_activite db code page limit base_url).numberOfItems
        = (get_entreprises_by_activite db code page limit base_url).itemListElement.length
      ∧ (get_entreprises_by_activite db code page limit base_url).totalItems
        = (db.filter (fun e => e.activite_principale_unite_legale == some code)).length
      ∧ (get_entreprises_by_activite db code page limit base_url).itemListElement
        = ((db.filter (fun e => e.activite_principale_unite_legale == some code)).drop
            ((page - 1) * limit)).take limit
      ∧ (get_entreprises_by_activite db code page limit base_url).numberOfItems ≤ limit := by
  refine ⟨rfl, rfl, rfl, ?_⟩
  show (List.take limit _).length ≤ limit
  simp [List.length_take]

/-! ## Bulk-load pipeline (import_csv_to_mysql.py) -/

/-- COLUMN_MAPPING of import_csv_to_mysql.py (lines 37-72): the static
translation table from CSV field names to table column names, in source
order. -/
def COLUMN_MAPPING : List (String × String) :=
  [("siren", "siren"),
   ("statutDiffusionUniteLegale", "statut_diffusion_unite_legale"),
   ("unitePurgeeUniteLegale", "unite_purgee_unite_legale"),
   ("dateCreationUniteLegale", "date_creation_unite_legale"),
   ("sigleUniteLegale", "sigle_unite_legale"),
   ("sexeUniteLegale", "sexe_unite_legale"),
   ("prenom1UniteLegale", "prenom_1_unite_legale"),
   ("prenom2UniteLegale", "prenom_2_unite_legale"),
   ("prenom3UniteLegale", "prenom_3_unite_legale"),
   ("prenom4UniteLegale", "prenom_4_unite_legale"),
   ("prenomUsuelUniteLegale", "prenom_usuel_unite_legale"),
   ("pseudonymeUniteLegale", "pseudonyme_unite_legale"),
   ("identifiantAssociationUniteLegale", "identifiant_association_unite_legale"),
   ("trancheEffectifsUniteLegale", "tranche_effectifs_unite_legale"),
   ("anneeEffectifsUniteLegale", "annee_effectifs_unite_legale"),
   ("dateDernierTraitementUniteLegale", "date_dernier_traitement_unite_legale"),
   ("nombrePeriodesUniteLegale", "nombre_periodes_unite_legale"),
   ("categorieEntreprise", "categorie_entreprise"),
   ("anneeCategorieEntreprise", "annee_categorie_entreprise"),
   ("dateDebut", "date_debut"),
   ("etatAdministratifUniteLegale", "etat_administratif_unite_legale"),
   ("nomUniteLegale", "nom_unite_legale"),
   ("nomUsageUniteLegale", "nom_usage_unite_legale"),
   ("denominationUniteLegale", "denomination_unite_legale"),
   ("denominationUsuelle1UniteLegale", "denomination_usuelle_1_unite_legale"),
   ("denominationUsuelle2UniteLegale", "denomination_usuelle_2_unite_legale"),
   ("denominationUsuelle3UniteLegale", "denomination_usuelle_3_unite_legale"),
   ("categorieJuridiqueUniteLegale", "categorie_juridique_unite_legale"),
   ("activitePrincipaleUniteLegale", "activite_principale_unite_legale"),
   ("nomenclatureActivitePrincipaleUniteLegale",
    "nomenclature_activite_principale_unite_legale"),
   ("nicSiegeUniteLegale", "nic_siege_unite_legale"),
   ("economieSocialeSolidaireUniteLegale", "economie_sociale_solidaire_unite_legale"),
   ("societeMissionUniteLegale", "societe_mission_unite_legale"),
   ("caractereEmployeurUniteLegale", "caractere_employeur_unite_legale")]

/-- SourceRecord models one row produced by csv.DictReader: an ordered
mapping from field name to a raw string, where a value can itself be None
(DictReader fills missing fields of a short line with None). -/
abbrev SourceRecord := List (String × Option String)

/-- TargetRecord models mapped_row of import_csv: an ordered mapping from
table column name to a string-or-NULL value. -/
abbrev TargetRecord := List (String × Option String)

/-- Embedding of `row.get(csv_col, None)` (import_csv_to_mysql.py line 148):
the stored value when the field is present, None otherwise. -/
def getField (row : SourceRecord) (k : String) : Option String :=
  match row.lookup k with
  | some v => v
  | none => none

/-- The row-mapping loop of import_csv (lines 146-153): for every entry of
COLUMN_MAPPING in order, the target column gets NULL when the source field
is the empty string or absent, and the raw value unmodified otherwise. -/
def map_row (row : SourceRecord) : TargetRecord :=
  COLUMN_MAPPING.map (fun p =>
    (p.2,
      if getField row p.1 = some "" ∨ getField row p.1 = none then none
      else getField row p.1))

/-- Key of a target record under the table's uniqueness constraint: the
value of its siren column, which is the primary key of unite_legale
(services/api-mysql/models.py line 15). -/
def rowKey (r : TargetRecord) : Option String :=
  (r.lookup "siren").join

/-- Modelled external-store behaviour (MySQL INSERT IGNORE, the glossary's
insert-or-ignore): rows are processed in statement order; a row whose key
already exists in the store is silently dropped, any other row is appended;
the returned count is the number of rows actually inserted (the statement's
rowcount). -/
def insertIgnore (st : List (Option String)) : List TargetRecord → List (Option String) × Nat
  | [] => (st, 0)
  | r :: rs =>
    if rowKey r ∈ st then insertIgnore st rs
    else
      let res := insertIgnore (st ++ [rowKey r]) rs
      (res.1, res.2 + 1)

/-- StoreModel captures which batches the external store rejects for a
non-duplicate reason (malformed statement, connection loss, ...): duplicate
keys are never a rejection — they are absorbed by insertIgnore. -/
structure StoreModel where
  rejects : List TargetRecord → Bool

/-- The function insert_batch of import_csv_to_mysql.py (lines 188-224):
returns 0 on an empty batch; executes the multi-row INSERT IGNORE and
returns the rowcount when positive, else 0; and — decisive for claims C1 and
C2 — catches every store exception, prints a warning and returns 0, so a
rejected batch leaves the store state unchanged and no failure propagates to
the caller.  The store state (list of present keys) is threaded explicitly. -/
def insert_batch (m : StoreModel) (st : List (Option String))
    (batch : List TargetRecord) : List (Option String) × Int :=
  if batch.isEmpty then (st, 0)
  else if m.rejects batch then (st, 0)
  else
    let res := insertIgnore st batch
    (res.1, if (res.2 : Int) > 0 then (res.2 : Int) else 0)

/-- RunState models the loop state of import_csv (lines 137-169): the
current buffer, the running counters, and — as instrumentation for the
theorems — the trace of batches handed to the loader so far.  Counters are
Int, following Python integer arithmetic.  The store state sigma is
abstract so that the same loop serves both the abstract-loader claims and
the modelled-store claims. -/
structure RunState (σ : Type) where
  store : σ
  batch : List TargetRecord
  calls : List (List TargetRecord)
  total_rows : Int
  inserted_rows : Int
  skipped_rows : Int

/-- Loop body of import_csv (lines 142-163): map the record, append it to
the buffer, and when the buffer reaches batch_size invoke the loader, fold
its result into the counters (skipped grows by len(batch) - inserted) and
clear the buffer. -/
def import_step {σ : Type} (batch_size : Nat)
    (loadFn : σ → List TargetRecord → σ × Int)
    (s : RunState σ) (row : SourceRecord) : RunState σ :=
  let batch2 := s.batch ++ [map_row row]
  if batch_size ≤ batch2.length then
    let r := loadFn s.store batch2
    { store := r.1
      batch := []
      calls := s.calls ++ [batch2]
      total_rows := s.total_rows + 1
      inserted_rows := s.inserted_rows + r.2
      skipped_rows := s.skipped_rows + ((batch2.length : Int) - r.2) }
  else
    { s with batch := batch2, total_rows := s.total_rows + 1 }

/-- Final-batch flush of import_csv (lines 166-169): if the buffer is
non-empty, hand it to the loader and fold the result. -/
def import_flush {σ : Type} (loadFn : σ → List TargetRecord → σ × Int)
    (s : RunState σ) : RunState σ :=
  if s.batch.isEmpty then s
  else
    let r := loadFn s.store s.batch
    { store := r.1
      batch := []
      calls := s.calls ++ [s.batch]
      total_rows := s.total_rows
      inserted_rows := s.inserted_rows + r.2
      skipped_rows := s.skipped_rows + ((s.batch.length : Int) - r.2) }

/-- Initial loop state of import_csv (lines 137-140). -/
def init_state {σ : Type} (store0 : σ) : RunState σ :=
  { store := store0, batch := [], calls := [], total_rows := 0,
    inserted_rows := 0, skipped_rows := 0 }

/-- The streaming for-loop of import_csv over the source records. -/
def import_loop {σ : Type} (batch_size : Nat)
    (loadFn : σ → List TargetRecord → σ × Int)
    (s : RunState σ) (rows : List SourceRecord) : RunState σ :=
  rows.foldl (import_step batch_size loadFn) s

/-- Whole record-processing phase of import_csv: stream loop then flush. -/
def import_run {σ : Type} (batch_size : Nat)
    (loadFn : σ → List TargetRecord → σ × Int)
    (store0 : σ) (rows : List SourceRecord) : RunState σ :=
  import_flush loadFn (import_loop batch_size loadFn (init_state store0) rows)

/-- Loop state of import_csv after its first k source records, used to state
properties holding at every intermediate point of a run. -/
def run_after {σ : Type} (batch_size : Nat)
    (loadFn : σ → List TargetRecord → σ × Int)
    (store0 : σ) (rows : List SourceRecord) (k : Nat) : RunState σ :=
  import_loop batch_size loadFn (init_state store0) (rows.take k)

/-- TxResult models the observable outcome of one import_csv run against
the modelled store: the committed key set and the printed summary counters.
success mirrors reaching the commit and the success summary (lines 171-178). -/
structure TxResult where
  committed : List (Option String)
  success : Bool
  total_rows : Int
  inserted_rows : Int
  skipped_rows : Int

/-- The function import_csv of import_csv_to_mysql.py (lines 129-185) run
against the modelled store, starting from committed key set committed0.
Because insert_batch catches every store exception internally, no exception
can reach import_csv's try/except from a batch insertion: once the stream is
read the commit at line 171 executes and the success summary is printed, so
success is unconditionally true.  Source-unavailability failures (file I/O)
happen before any store interaction and are outside this model. -/
def import_csv_tx (m : StoreModel) (committed0 : List (Option String))
    (batch_size : Nat) (rows : List SourceRecord) : TxResult :=
  let final := import_run batch_size (insert_batch m) committed0 rows
  { committed := final.store
    success := true
    total_rows := final.total_rows
    inserted_rows := final.inserted_rows
    skipped_rows := final.skipped_rows }

/-- Column-list extraction of insert_batch (line 203,
`columns = list(batch[0].keys())`): the key list of the first record. -/
def batch_columns (batch : List TargetRecord) : List String :=
  (batch.head?.getD []).map Prod.fst

/-! ## Row Mapper lemmas and claim C5 -/

/-- Key list of a mapped row: exactly the translation table's target columns,
in table order. -/
theorem map_row_keys (row : SourceRecord) :
    (map_row row).map Prod.fst = COLUMN_MAPPING.map Prod.snd := by
  rw [map_row, List.map_map]
  rfl

/-- Lookup in a key-renaming map of an association list with distinct target
keys returns the value computed from the matching source key. -/
theorem lookup_mapped (F : String → Option String) :
    ∀ (l : List (String × String)), (l.map Prod.snd).Nodup →
      ∀ c d : String, (c, d) ∈ l →
        (l.map (fun p => (p.2, F p.1))).lookup d = some (F c)
  | [], _, c, d, h => by simp at h
  | p :: ps, hnd, c, d, h => by
    rcases List.mem_cons.1 h with heq | htail
    · cases heq
      simp [List.lookup]
    · have hd : d ∈ ps.map Prod.snd := List.mem_map.2 ⟨(c, d), htail, rfl⟩
      have hne : d ≠ p.2 := by
        rintro rfl
        exact (List.nodup_cons.1 hnd).1 hd
      have : (d == p.2) = false := beq_false_of_ne hne
      simp only [List.map_cons, List.lookup, this]
      exact lookup_mapped F ps (List.nodup_cons.1 hnd).2 c d htail

/-- Claim C5: the Row Mapper is a total pure function.  For every source
record and every translation-table entry (c, d): the mapped output's key
list is exactly the target-column list of the table (each target column
exactly once, table order, source fields outside the table dropped); looking
up target column d yields NULL when source field c is absent or the empty
string and the raw unmodified string otherwise; and no target value is ever
the empty string.  Totality and absence of a failure mode hold by
construction: map_row is a Lean function defined on all records. -/
theorem row_mapper_total (row : SourceRecord) (c d : String)
    (hcd : (c, d) ∈ COLUMN_MAPPING) :
    (map_row row).map Prod.fst = COLUMN_MAPPING.map Prod.snd
      ∧ (COLUMN_MAPPING.map Prod.snd).Nodup
      ∧ (map_row row).lookup d
        = some (if getField row c = some "" ∨ getField row c = none then none
                else getField row c)
      ∧ (∀ e ∈ map_row row, e.2 ≠ some "") := by
  have hnd : (COLUMN_MAPPING.map Prod.snd).Nodup := by decide
  refine ⟨map_row_keys row, hnd, ?_, ?_⟩
  · exact lookup_mapped
      (fun x => if getField row x = some "" ∨ getField row x = none then none
                else getField row x)
      COLUMN_MAPPING hnd c d hcd
  · intro e he
    rw [map_row] at he
    obtain ⟨p, hp, rfl⟩ := List.mem_map.1 he
    by_cases h : getField row p.1 = some "" ∨ getField row p.1 = none
    · simp [h]
    · push_neg at h
      show (if getField row p.1 = some "" ∨ getField row p.1 = none then none
            else getField row p.1) ≠ some ""
      rw [if_neg (not_or.mpr h)]
      exact h.1

/-- Witness for C5 at a concrete record carrying a raw siren value and an
empty sigle: the siren is carried over unmodified, the empty sigle maps to
NULL. -/
theorem row_mapper_total_witness :
    (map_row [("siren", some "123456789"), ("sigleUniteLegale", some "")]).map Prod.fst
        = COLUMN_MAPPING.map Prod.snd
      ∧ (COLUMN_MAPPING.map Prod.snd).Nodup
      ∧ (map_row [("siren", some "123456789"), ("sigleUniteLegale", some "")]).lookup
          "sigle_unite_legale"
        = some (if getField [("siren", some "123456789"), ("sigleUniteLegale", some "")]
                    "sigleUniteLegale" = some ""
                  ∨ getField [("siren", some "123456789"), ("sigleUniteLegale", some "")]
                    "sigleUniteLegale" = none
                then none
                else getField [("siren", some "123456789"), ("sigleUniteLegale", some "")]
                    "sigleUniteLegale")
      ∧ (∀ e ∈ map_row [("siren", some "123456789"), ("sigleUniteLegale", some "")],
          e.2 ≠ some "") :=
  row_mapper_total [("siren", some "123456789"), ("sigleUniteLegale", some "")]
    "sigleUniteLegale" "sigle_unite_legale" (by decide)

/-! ## Batch Accumulator lemmas -/

/-- Loop invariant of import_csv's streaming loop: starting from a state
whose buffer is strictly below batch_size, after consuming the remaining
records the buffer is still strictly below batch_size, the new loader calls
are exactly the full batches of size batch_size, the buffer holds the
division remainder, the concatenation of all calls plus the buffer is the
stream of mapped records in order, and total_rows counts every record. -/
theorem import_loop_invariant {σ : Type} (bs : Nat) (hb : 1 ≤ bs)
    (f : σ → List TargetRecord → σ × Int) (rows : List SourceRecord) :
    ∀ s : RunState σ, s.batch.length < bs →
      (import_loop bs f s rows).batch.length < bs
      ∧ (import_loop bs f s rows).calls.map List.length
          = s.calls.map List.length
            ++ List.replicate ((s.batch.length + rows.length) / bs) bs
      ∧ (import_loop bs f s rows).batch.length = (s.batch.length + rows.length) % bs
      ∧ (import_loop bs f s rows).calls.flatten ++ (import_loop bs f s rows).batch
          = s.calls.flatten ++ s.batch ++ rows.map map_row
      ∧ (import_loop bs f s rows).total_rows = s.total_rows + rows.length := by
  induction rows with
  | nil =>
    intro s hs
    refine ⟨hs, ?_, ?_, ?_, ?_⟩ <;>
      simp [import_loop, Nat.div_eq_of_lt hs, Nat.mod_eq_of_lt hs]
  | cons r rs ih =>
    intro s hs
    have hunfold : import_loop bs f s (r :: rs)
        = import_loop bs f (import_step bs f s r) rs := rfl
    by_cases hfull : bs ≤ (s.batch ++ [map_row r]).length
    · have hlen : (s.batch ++ [map_row r]).length = bs := by
        simp only [List.length_append, List.length_cons, List.length_nil] at hfull ⊢
        omega
      have hfull' : bs ≤ s.batch.length + 1 := by simpa using hfull
      have e1 : (import_step bs f s r).batch = [] := by
        simp [import_step, hfull']
      have e2 : (import_step bs f s r).calls = s.calls ++ [s.batch ++ [map_row r]] := by
        simp [import_step, hfull']
      have e3 : (import_step bs f s r).total_rows = s.total_rows + 1 := by
        simp [import_step, hfull']
      obtain ⟨ih1, ih2, ih3, ih4, ih5⟩ :=
        ih (import_step bs f s r) (by rw [e1]; simpa using hb)
      simp only [e1, e2, e3] at ih2 ih3 ih4 ih5
      have hdiv : (s.batch.length + (rs.length + 1)) / bs = rs.length / bs + 1 := by
        have harith : s.batch.length + (rs.length + 1) = bs + rs.length := by
          simp only [List.length_append, List.length_cons, List.length_nil] at hlen
          omega
        rw [harith, Nat.add_div_left _ hb]
      have hmod : (s.batch.length + (rs.length + 1)) % bs = rs.length % bs := by
        have harith : s.batch.length + (rs.length + 1) = bs + rs.length := by
          simp only [List.length_append, List.length_cons, List.length_nil] at hlen
          omega
        rw [harith, Nat.add_mod_left]
      rw [hunfold]
      refine ⟨ih1, ?_, ?_, ?_, ?_⟩
      · rw [ih2]
        simp only [List.length_nil, Nat.zero_add, List.map_append, List.map_cons,
          List.map_nil, hlen, List.length_cons]
        rw [hdiv, List.replicate_succ]
        simp
      · rw [ih3]
        simp only [List.length_nil, Nat.zero_add, List.length_cons, hmod]
      · rw [ih4]
        simp [List.flatten_append, List.append_assoc]
      · rw [ih5]
        simp only [List.length_cons]
        push_cast
        ring
    · have hfull' : ¬ bs ≤ s.batch.length + 1 := by simpa using hfull
      have e1 : (import_step bs f s r).batch = s.batch ++ [map_row r] := by
        simp [import_step, hfull']
      have e2 : (import_step bs f s r).calls = s.calls := by
        simp [import_step, hfull']
      have e3 : (import_step bs f s r).total_rows = s.total_rows + 1 := by
        simp [import_step, hfull']
      obtain ⟨ih1, ih2, ih3, ih4, ih5⟩ :=
        ih (import_step bs f s r) (by rw [e1]; omega)
      simp only [e1, e2, e3] at ih2 ih3 ih4 ih5
      have harith : (s.batch ++ [map_row r]).length + rs.length
          = s.batch.length + (rs.length + 1) := by
        simp only [List.length_append, List.length_cons, List.length_nil]
        omega
      rw [hunfold]
      refine ⟨ih1, ?_, ?_, ?_, ?_⟩
      · rw [ih2, harith]
        simp
      · rw [ih3, harith]
        simp
      · rw [ih4]
        simp [List.append_assoc]
      · rw [ih5]
        simp only [List.length_cons]
        push_cast
        ring

/-- Run-level batch decomposition: over a whole run, the loader-call sizes
are floor(N/bs) full batches followed by one remainder batch exactly when
N mod bs is non-zero, the concatenation of all calls is the mapped stream
in order, and the buffer ends empty. -/
theorem import_run_calls {σ : Type} (bs : Nat) (hb : 1 ≤ bs)
    (f : σ → List TargetRecord → σ × Int) (store0 : σ) (rows : List SourceRecord) :
    (import_run bs f store0 rows).calls.map List.length
        = List.replicate (rows.length / bs) bs
          ++ (if rows.length % bs = 0 then [] else [rows.length % bs])
      ∧ (import_run bs f store0 rows).calls.flatten = rows.map map_row
      ∧ (import_run bs f store0 rows).batch = [] := by
  obtain ⟨h1, h2, h3, h4, h5⟩ :=
    import_loop_invariant bs hb f rows (init_state store0) (by simpa [init_state] using hb)
  have i1 : (init_state store0 : RunState σ).calls = [] := rfl
  have i2 : (init_state store0 : RunState σ).batch = [] := rfl
  simp only [i1, i2, List.map_nil, List.nil_append, List.flatten, Nat.zero_add,
    List.length_nil] at h2 h3 h4
  rw [import_run]
  by_cases hempty : (import_loop bs f (init_state store0) rows).batch.isEmpty
  · have hnil : (import_loop bs f (init_state store0) rows).batch = [] :=
      List.isEmpty_iff.1 hempty
    have hmod : rows.length % bs = 0 := by rw [← h3, hnil, List.length_nil]
    rw [import_flush, if_pos hempty]
    refine ⟨?_, ?_, hnil⟩
    · rw [h2, hmod]
      simp
    · rw [← h4, hnil, List.append_nil]
  · have hmod : rows.length % bs ≠ 0 := by
      intro h0
      rw [← h3] at h0
      exact hempty (by simpa [List.isEmpty_iff, List.length_eq_zero] using h0)
    rw [import_flush, if_neg hempty]
    refine ⟨?_, ?_, rfl⟩
    · simp only [List.map_append, List.map_cons, List.map_nil, h2, h3, if_neg hmod]
    · simp only [List.flatten_append, h4]
      simp [← h4]

/-- Claim C6: batch accumulation.  For every batchSize ≥ 1 and every source
stream, the loader is invoked on exactly floor(N/batchSize) full batches of
size batchSize, in stream order, plus one final flushed batch of size
N mod batchSize exactly when N mod batchSize is non-zero; concatenating the
invocations in order reproduces the mapped stream. -/
theorem batch_accumulation {σ : Type} (bs : Nat)
    (f : σ → List TargetRecord → σ × Int) (store0 : σ)
    (rows : List SourceRecord) (hb : 1 ≤ bs) :
    (import_run bs f store0 rows).calls.map List.length
        = List.replicate (rows.length / bs) bs
          ++ (if rows.length % bs = 0 then [] else [rows.length % bs])
      ∧ (import_run bs f store0 rows).calls.flatten = rows.map map_row := by
  obtain ⟨h1, h2, _⟩ := import_run_calls bs hb f store0 rows
  exact ⟨h1, h2⟩

/-- Witness for C6 at the spec's worked example scaled by 1/100: a stream of
25 records with batchSize 10 — two full batches of 10 plus a flushed
remainder batch of 5. -/
theorem batch_accumulation_witness :
    (import_run 10 (fun (st : Unit) _ => (st, (0 : Int))) ()
          (List.replicate 25 ([] : SourceRecord))).calls.map List.length
        = List.replicate ((List.replicate 25 ([] : SourceRecord)).length / 10) 10
          ++ (if (List.replicate 25 ([] : SourceRecord)).length % 10 = 0 then []
              else [(List.replicate 25 ([] : SourceRecord)).length % 10])
      ∧ (import_run 10 (fun (st : Unit) _ => (st, (0 : Int))) ()
          (List.replicate 25 ([] : SourceRecord))).calls.flatten
        = (List.replicate 25 ([] : SourceRecord)).map map_row :=
  batch_accumulation 10 (fun (st : Unit) _ => (st, (0 : Int))) ()
    (List.replicate 25 ([] : SourceRecord)) (by decide)

/-- Claim C8: batch shape invariant.  Every batch handed to the loader is
non-empty and consists of records with the identical key list — the fixed
translation-table column order — so the column list insert_batch builds from
the first record is exactly each record's column list. -/
theorem batch_shape_invariant {σ : Type} (bs : Nat)
    (f : σ → List TargetRecord → σ × Int) (store0 : σ)
    (rows : List SourceRecord) (hb : 1 ≤ bs)
    (b : List TargetRecord) (hbmem : b ∈ (import_run bs f store0 rows).calls)
    (rec : TargetRecord) (hrec : rec ∈ b) :
    b ≠ []
      ∧ rec.map Prod.fst = COLUMN_MAPPING.map Prod.snd
      ∧ rec.map Prod.fst = batch_columns b := by
  obtain ⟨h1, h2, _⟩ := import_run_calls bs hb f store0 rows
  have hkeys : ∀ x ∈ b, List.map Prod.fst x = COLUMN_MAPPING.map Prod.snd := by
    intro x hx
    have hflat : x ∈ (import_run bs f store0 rows).calls.flatten :=
      List.mem_flatten.2 ⟨b, hbmem, hx⟩
    rw [h2] at hflat
    obtain ⟨r, _, rfl⟩ := List.mem_map.1 hflat
    exact map_row_keys r
  have hne : b ≠ [] := by
    intro h0
    have hmem0 : (0 : Nat) ∈ (import_run bs f store0 rows).calls.map List.length :=
      List.mem_map.2 ⟨b, hbmem, by rw [h0]; rfl⟩
    rw [h1] at hmem0
    rcases List.mem_append.1 hmem0 with hrep | hrem
    · have := List.eq_of_mem_replicate hrep
      omega
    · by_cases hm : rows.length % bs = 0
      · rw [if_pos hm] at hrem
        simp at hrem
      · rw [if_neg hm] at hrem
        simp at hrem
        omega
  refine ⟨hne, hkeys rec hrec, ?_⟩
  obtain ⟨h0, t, rfl⟩ := List.exists_cons_of_ne_nil hne
  rw [batch_columns]
  simp only [List.head?_cons, Option.getD_some]
  rw [hkeys rec hrec, hkeys h0 (List.mem_cons_self h0 t)]

/-- Witness for C8: in a one-record run with batchSize 1, the single loader
call is non-empty and its record's keys are the translation-table columns,
matching the columns insert_batch extracts from the first record. -/
theorem batch_shape_invariant_witness :
    [map_row [("siren", some "1")]] ≠ ([] : List TargetRecord)
      ∧ (map_row [("siren", some "1")]).map Prod.fst = COLUMN_MAPPING.map Prod.snd
      ∧ (map_row [("siren", some "1")]).map Prod.fst
        = batch_columns [map_row [("siren", some "1")]] :=
  batch_shape_invariant 1 (fun (st : Unit) _ => (st, (0 : Int))) ()
    [[("siren", some "1")]] (by decide)
    [map_row [("siren", some "1")]] (by decide)
    (map_row [("siren", some "1")]) (by decide)

/-! ## Bulk Loader lemmas and claim C7 -/

/-- Keys already in the store survive insertIgnore, and every processed
row's key is present afterwards. -/
theorem insertIgnore_keys (batch : List TargetRecord) :
    ∀ st : List (Option String),
      (∀ k, k ∈ st → k ∈ (insertIgnore st batch).1)
      ∧ (∀ r ∈ batch, rowKey r ∈ (insertIgnore st batch).1) := by
  induction batch with
  | nil =>
    intro st
    exact ⟨fun k hk => hk, fun r hr => absurd hr (List.not_mem_nil r)⟩
  | cons r rs ih =>
    intro st
    by_cases h : rowKey r ∈ st
    · rw [insertIgnore, if_pos h]
      refine ⟨(ih st).1, ?_⟩
      intro x hx
      rcases List.mem_cons.1 hx with heq | hx'
      · subst heq
        exact (ih st).1 _ h
      · exact (ih st).2 x hx'
    · rw [insertIgnore, if_neg h]
      refine ⟨?_, ?_⟩
      · intro k hk
        exact (ih (st ++ [rowKey r])).1 k (List.mem_append_left _ hk)
      · intro x hx
        rcases List.mem_cons.1 hx with heq | hx'
        · subst heq
          exact (ih (st ++ [rowKey x])).1 _
            (List.mem_append_right _ (List.mem_singleton.2 rfl))
        · exact (ih (st ++ [rowKey r])).2 x hx'

/-- If every row's key is already present, insertIgnore inserts nothing and
leaves the store unchanged. -/
theorem insertIgnore_noop (batch : List TargetRecord) :
    ∀ st : List (Option String), (∀ r ∈ batch, rowKey r ∈ st) →
      insertIgnore st batch = (st, 0) := by
  induction batch with
  | nil => intro st _; rfl
  | cons r rs ih =>
    intro st h
    rw [insertIgnore, if_pos (h r (List.mem_cons_self r rs))]
    exact ih st fun x hx => h x (List.mem_cons_of_mem r hx)

/-- Claim C7: row-level idempotency of the insert-or-ignore load.  For every
batch not rejected by the store, loading it a second time against the store
state left by the first application persists 0 rows, leaves the store
unchanged, and the controller's skipped fold (len(batch) - inserted) counts
exactly the batch size. -/
theorem insert_batch_idempotent (m : StoreModel) (st : List (Option String))
    (batch : List TargetRecord) (hrej : m.rejects batch = false) :
    (insert_batch m (insert_batch m st batch).1 batch).2 = 0
      ∧ (insert_batch m (insert_batch m st batch).1 batch).1
        = (insert_batch m st batch).1
      ∧ (batch.length : Int) - (insert_batch m (insert_batch m st batch).1 batch).2
        = (batch.length : Int) := by
  by_cases hb0 : batch = []
  · subst hb0
    exact ⟨rfl, rfl, by simp [insert_batch]⟩
  · have hne : batch.isEmpty = false := by simpa [List.isEmpty_iff] using hb0
    have hfirst : (insert_batch m st batch).1 = (insertIgnore st batch).1 := by
      rw [insert_batch, hne]
      simp [hrej]
    have hall : ∀ x ∈ batch, rowKey x ∈ (insert_batch m st batch).1 := by
      rw [hfirst]
      exact (insertIgnore_keys batch st).2
    have hsecond : insertIgnore (insert_batch m st batch).1 batch
        = ((insert_batch m st batch).1, 0) := insertIgnore_noop batch _ hall
    have hres : insert_batch m (insert_batch m st batch).1 batch
        = ((insert_batch m st batch).1, 0) := by
      rw [insert_batch, hne]
      simp [hrej, hsecond]
    rw [hres]
    exact ⟨rfl, rfl, by simp⟩

/-- Witness for C7: a one-row batch loaded twice into an initially empty
store — the second application persists nothing and skips the whole batch. -/
theorem insert_batch_idempotent_witness :
    (insert_batch ⟨fun _ => false⟩
        (insert_batch ⟨fun _ => false⟩ [] [map_row [("siren", some "1")]]).1
        [map_row [("siren", some "1")]]).2 = 0
      ∧ (insert_batch ⟨fun _ => false⟩
          (insert_batch ⟨fun _ => false⟩ [] [map_row [("siren", some "1")]]).1
          [map_row [("siren", some "1")]]).1
        = (insert_batch ⟨fun _ => false⟩ [] [map_row [("siren", some "1")]]).1
      ∧ (([map_row [("siren", some "1")]].length : Int)
          - (insert_batch ⟨fun _ => false⟩
              (insert_batch ⟨fun _ => false⟩ [] [map_row [("siren", some "1")]]).1
              [map_row [("siren", some "1")]]).2
        = ([map_row [("siren", some "1")]].length : Int)) :=
  insert_batch_idempotent ⟨fun _ => false⟩ [] [map_row [("siren", some "1")]] rfl

/-! ## Transfer Controller: store threading, claims C1 and C2 -/

/-- Store threading of the loop: the store state after the loop equals the
initial committed state with every loader call applied in order. -/
theorem import_loop_store {σ : Type} (bs : Nat)
    (f : σ → List TargetRecord → σ × Int) (c0 : σ) (rows : List SourceRecord) :
    ∀ s : RunState σ,
      s.store = s.calls.foldl (fun st b => (f st b).1) c0 →
      (import_loop bs f s rows).store
        = (import_loop bs f s rows).calls.foldl (fun st b => (f st b).1) c0 := by
  induction rows with
  | nil => intro s h; exact h
  | cons r rs ih =>
    intro s h
    show (import_loop bs f (import_step bs f s r) rs).store = _
    apply ih
    by_cases hfull : bs ≤ s.batch.length + 1
    · have e1 : (import_step bs f s r).store
          = (f s.store (s.batch ++ [map_row r])).1 := by
        simp [import_step, hfull]
      have e2 : (import_step bs f s r).calls
          = s.calls ++ [s.batch ++ [map_row r]] := by
        simp [import_step, hfull]
      rw [e1, e2, List.foldl_append, ← h]
      rfl
    · have e1 : (import_step bs f s r).store = s.store := by
        simp [import_step, hfull]
      have e2 : (import_step bs f s r).calls = s.calls := by
        simp [import_step, hfull]
      rw [e1, e2, h]

/-- Store threading through the final flush. -/
theorem import_run_store {σ : Type} (bs : Nat)
    (f : σ → List TargetRecord → σ × Int) (c0 : σ) (rows : List SourceRecord) :
    (import_run bs f c0 rows).store
      = (import_run bs f c0 rows).calls.foldl (fun st b => (f st b).1) c0 := by
  have hloop := import_loop_store bs f c0 rows (init_state c0) rfl
  rw [import_run, import_flush]
  by_cases hempty : (import_loop bs f (init_state c0) rows).batch.isEmpty
  · rw [if_pos hempty]
    exact hloop
  · rw [if_neg hempty]
    simp only [List.foldl_append, List.foldl_cons, List.foldl_nil, ← hloop]

/-- Claim C1 (amended): when the store rejects a batch for a non-duplicate
reason, insert_batch reports zero persisted rows and leaves the store
unchanged, but does not surface the failure: the controller's fold counts
the entire batch as skipped (the skipped counter increases by the batch
length, not zero), and the run always reaches the commit and reports
success, never observing a batch failure. -/
theorem insert_batch_rejection_swallowed (m : StoreModel)
    (st : List (Option String)) (batch : List TargetRecord)
    (calls : List (List TargetRecord)) (t i k : Int)
    (committed0 : List (Option String)) (bs : Nat) (rows : List SourceRecord)
    (hne : batch ≠ []) (hrej : m.rejects batch = true) :
    insert_batch m st batch = (st, 0)
      ∧ import_flush (insert_batch m)
          { store := st, batch := batch, calls := calls,
            total_rows := t, inserted_rows := i, skipped_rows := k }
        = { store := st, batch := [], calls := calls ++ [batch],
            total_rows := t, inserted_rows := i,
            skipped_rows := k + (batch.length : Int) }
      ∧ (import_csv_tx m committed0 bs rows).success = true := by
  have hb : batch.isEmpty = false := by simpa [List.isEmpty_iff] using hne
  have hins : insert_batch m st batch = (st, 0) := by
    rw [insert_batch, hb]
    simp [hrej]
  refine ⟨hins, ?_, rfl⟩
  rw [import_flush]
  simp only [hb, Bool.false_eq_true, if_false, hins]
  simp

/-- Witness for C1's amended theorem: a concrete rejected one-row batch — the
loader returns zero persisted, the flush adds the full batch length to the
skipped counter, and the run reports success. -/
theorem insert_batch_rejection_swallowed_witness :
    insert_batch ⟨fun _ => true⟩ [] [map_row [("siren", some "7")]]
        = ([], 0)
      ∧ import_flush (insert_batch ⟨fun _ => true⟩)
          { store := [], batch := [map_row [("siren", some "7")]], calls := [],
            total_rows := 1, inserted_rows := 0, skipped_rows := 0 }
        = { store := [], batch := [],
            calls := [] ++ [[map_row [("siren", some "7")]]],
            total_rows := 1, inserted_rows := 0,
            skipped_rows := 0 + (([map_row [("siren", some "7")]].length : Nat) : Int) }
      ∧ (import_csv_tx ⟨fun _ => true⟩ [] 1 [[("siren", some "7")]]).success = true :=
  insert_batch_rejection_swallowed ⟨fun _ => true⟩ [] [map_row [("siren", some "7")]]
    [] 1 0 0 [] 1 [[("siren", some "7")]] (by simp) rfl

/-- Counterexample to C1 as stated: with a store that rejects the single
batch of a one-record run (batch size 1), the run's skipped counter IS
increased by that batch (it ends at 1, not 0) and the controller does NOT
observe a failure (the run reports success). -/
theorem insert_batch_rejection_counterexample :
    (import_csv_tx ⟨fun _ => true⟩ [] 1 [[("siren", some "1")]]).skipped_rows = 1
      ∧ (import_csv_tx ⟨fun _ => true⟩ [] 1 [[("siren", some "1")]]).success = true := by
  constructor <;> rfl

/-- Claim C2 (amended): a run's final store state is NOT all-or-nothing.
The run always reaches the commit and reports success; the committed state
is the initial state with each loader call applied in order, and a batch the
store rejects leaves the state unchanged — so when one batch out of several
is rejected, the rows of the non-rejected batches are retained (a
partial-run state is committed), and no run-level rollback occurs on batch
rejection. -/
theorem run_final_state_partial_commit (m : StoreModel)
    (committed0 : List (Option String)) (bs : Nat) (rows : List SourceRecord)
    (st : List (Option String)) (b : List TargetRecord)
    (hrejb : m.rejects b = true) :
    (import_csv_tx m committed0 bs rows).success = true
      ∧ (import_csv_tx m committed0 bs rows).committed
        = (import_run bs (insert_batch m) committed0 rows).calls.foldl
            (fun acc c => (insert_batch m acc c).1) committed0
      ∧ (insert_batch m st b).1 = st := by
  refine ⟨rfl, ?_, ?_⟩
  · exact import_run_store bs (insert_batch m) committed0 rows
  · by_cases hb0 : b = []
    · subst hb0
      rfl
    · have hb : b.isEmpty = false := by simpa [List.isEmpty_iff] using hb0
      rw [insert_batch, hb]
      simp [hrejb]

/-- Witness for C2's amended theorem at a concrete run: three one-row
batches of which the second is rejected — the run reports success, the
committed state is the fold of the three loader calls, and the rejected
batch leaves any store state unchanged. -/
theorem run_final_state_partial_commit_witness :
    (import_csv_tx ⟨fun c => c.any (fun r => rowKey r == some "2")⟩ [] 1
        [[("siren", some "1")], [("siren", some "2")], [("siren", some "3")]]).success
        = true
      ∧ (import_csv_tx ⟨fun c => c.any (fun r => rowKey r == some "2")⟩ [] 1
          [[("siren", some "1")], [("siren", some "2")], [("siren", some "3")]]).committed
        = (import_run 1
            (insert_batch ⟨fun c => c.any (fun r => rowKey r == some "2")⟩) []
            [[("siren", some "1")], [("siren", some "2")], [("siren", some "3")]]).calls.foldl
            (fun acc c =>
              (insert_batch ⟨fun c => c.any (fun r => rowKey r == some "2")⟩ acc c).1) []
      ∧ (insert_batch ⟨fun c => c.any (fun r => rowKey r == some "2")⟩ [some "9"]
          [map_row [("siren", some "2")]]).1 = [some "9"] :=
  run_final_state_partial_commit ⟨fun c => c.any (fun r => rowKey r == some "2")⟩ [] 1
    [[("siren", some "1")], [("siren", some "2")], [("siren", some "3")]]
    [some "9"] [map_row [("siren", some "2")]] (by decide)

/-- Counterexample to C2 as stated: a run of three one-row batches whose
second batch is rejected for a non-duplicate reason does NOT terminate
reporting failure with zero rows from the run — it reports success and the
committed table retains the first and third batches' rows. -/
theorem run_rollback_counterexample :
    (import_csv_tx ⟨fun c => c.any (fun r => rowKey r == some "2")⟩ [] 1
        [[("siren", some "1")], [("siren", some "2")], [("siren", some "3")]]).success
        = true
      ∧ (import_csv_tx ⟨fun c => c.any (fun r => rowKey r == some "2")⟩ [] 1
          [[("siren", some "1")], [("siren", some "2")], [("siren", some "3")]]).committed
        = [some "1", some "3"] := by
  constructor <;> rfl

/-! ## TransferOutcome counters, claim C10 -/

/-- Conservation through the loop: the quantity inserted + skipped minus the
total size of all loader calls so far, and the quantity total_rows minus
calls size minus buffer size, are both loop invariants. -/
theorem import_loop_counter_inv {σ : Type} (bs : Nat)
    (f : σ → List TargetRecord → σ × Int) (rows : List SourceRecord) :
    ∀ s : RunState σ,
      (import_loop bs f s rows).inserted_rows + (import_loop bs f s rows).skipped_rows
          - ((((import_loop bs f s rows).calls.map List.length).sum : Nat) : Int)
        = s.inserted_rows + s.skipped_rows - (((s.calls.map List.length).sum : Nat) : Int)
      ∧ (import_loop bs f s rows).total_rows
          - ((((import_loop bs f s rows).calls.map List.length).sum : Nat) : Int)
          - ((import_loop bs f s rows).batch.length : Int)
        = s.total_rows - (((s.calls.map List.length).sum : Nat) : Int)
          - (s.batch.length : Int) := by
  induction rows with
  | nil => intro s; exact ⟨rfl, rfl⟩
  | cons r rs ih =>
    intro s
    have estep1 : (import_step bs f s r).inserted_rows + (import_step bs f s r).skipped_rows
        - ((((import_step bs f s r).calls.map List.length).sum : Nat) : Int)
      = s.inserted_rows + s.skipped_rows - (((s.calls.map List.length).sum : Nat) : Int) := by
      by_cases hfull : bs ≤ s.batch.length + 1 <;>
        simp [import_step, hfull, List.map_append, List.sum_append] <;>
        push_cast <;>
        ring
    have estep2 : (import_step bs f s r).total_rows
        - ((((import_step bs f s r).calls.map List.length).sum : Nat) : Int)
        - ((import_step bs f s r).batch.length : Int)
      = s.total_rows - (((s.calls.map List.length).sum : Nat) : Int)
        - (s.batch.length : Int) := by
      by_cases hfull : bs ≤ s.batch.length + 1 <;>
        simp [import_step, hfull, List.map_append, List.sum_append] <;>
        push_cast <;>
        ring
    exact ⟨((ih (import_step bs f s r)).1).trans estep1,
           ((ih (import_step bs f s r)).2).trans estep2⟩

/-- Conservation through the final flush, which also empties the buffer and
keeps total_rows unchanged. -/
theorem import_flush_counter_inv {σ : Type}
    (f : σ → List TargetRecord → σ × Int) (s : RunState σ) :
    (import_flush f s).inserted_rows + (import_flush f s).skipped_rows
        - ((((import_flush f s).calls.map List.length).sum : Nat) : Int)
      = s.inserted_rows + s.skipped_rows - (((s.calls.map List.length).sum : Nat) : Int)
    ∧ (import_flush f s).total_rows
        - ((((import_flush f s).calls.map List.length).sum : Nat) : Int)
      = s.total_rows - (((s.calls.map List.length).sum : Nat) : Int)
        - (s.batch.length : Int)
    ∧ (import_flush f s).batch = []
    ∧ (import_flush f s).total_rows = s.total_rows := by
  by_cases hempty : s.batch.isEmpty
  · have hnil : s.batch = [] := List.isEmpty_iff.1 hempty
    rw [import_flush, if_pos hempty]
    exact ⟨rfl, by rw [hnil]; simp, hnil, rfl⟩
  · rw [import_flush, if_neg hempty]
    refine ⟨?_, ?_, rfl, rfl⟩ <;>
      simp [List.map_append, List.sum_append] <;>
      push_cast <;>
      ring

/-- Every loop step can only grow the three counters when the loader result
is bounded by the batch size. -/
theorem import_step_mono {σ : Type} (bs : Nat)
    (f : σ → List TargetRecord → σ × Int)
    (hf : ∀ st c, 0 ≤ (f st c).2 ∧ (f st c).2 ≤ (c.length : Int))
    (s : RunState σ) (r : SourceRecord) :
    s.inserted_rows ≤ (import_step bs f s r).inserted_rows
    ∧ s.skipped_rows ≤ (import_step bs f s r).skipped_rows
    ∧ s.total_rows ≤ (import_step bs f s r).total_rows := by
  by_cases hfull : bs ≤ s.batch.length + 1
  · obtain ⟨h0, h1⟩ := hf s.store (s.batch ++ [map_row r])
    simp only [List.length_append, List.length_cons, List.length_nil] at h1
    refine ⟨?_, ?_, ?_⟩ <;>
      simp [import_step, hfull] <;>
      push_cast at h1 ⊢ <;>
      omega
  · refine ⟨?_, ?_, ?_⟩ <;> simp [import_step, hfull]

/-- Counters stay non-negative along the loop when the loader result is
bounded. -/
theorem import_loop_nonneg {σ : Type} (bs : Nat)
    (f : σ → List TargetRecord → σ × Int)
    (hf : ∀ st c, 0 ≤ (f st c).2 ∧ (f st c).2 ≤ (c.length : Int))
    (rows : List SourceRecord) :
    ∀ s : RunState σ, 0 ≤ s.inserted_rows → 0 ≤ s.skipped_rows →
      0 ≤ (import_loop bs f s rows).inserted_rows
      ∧ 0 ≤ (import_loop bs f s rows).skipped_rows := by
  induction rows with
  | nil => intro s h1 h2; exact ⟨h1, h2⟩
  | cons r rs ih =>
    intro s h1 h2
    obtain ⟨m1, m2, _⟩ := import_step_mono bs f hf s r
    exact ih (import_step bs f s r) (h1.trans m1) (h2.trans m2)

/-- Processing one more record never decreases the counters. -/
theorem run_after_mono {σ : Type} (bs : Nat)
    (f : σ → List TargetRecord → σ × Int)
    (hf : ∀ st c, 0 ≤ (f st c).2 ∧ (f st c).2 ≤ (c.length : Int))
    (store0 : σ) (rows : List SourceRecord) (k : Nat) :
    (run_after bs f store0 rows k).inserted_rows
        ≤ (run_after bs f store0 rows (k + 1)).inserted_rows
    ∧ (run_after bs f store0 rows k).skipped_rows
        ≤ (run_after bs f store0 rows (k + 1)).skipped_rows
    ∧ (run_after bs f store0 rows k).total_rows
        ≤ (run_after bs f store0 rows (k + 1)).total_rows := by
  rw [run_after, run_after, import_loop, import_loop, List.take_succ,
    List.foldl_append]
  rcases rows[k]? with _ | r
  · exact ⟨le_refl _, le_refl _, le_refl _⟩
  · exact import_step_mono bs f hf _ r

/-- Claim C10: counter conservation.  In every run of import_csv in which
each loader call returns a value between 0 and the batch's length, after any
number k of consumed records the counters satisfy
inserted_rows + skipped_rows = number of records handed to the loader so far
(the total size of all loader calls), both are non-negative, all three
counters are non-decreasing from each record to the next, and at run end
total_rows = inserted_rows + skipped_rows. -/
theorem counter_conservation {σ : Type} (bs : Nat)
    (f : σ → List TargetRecord → σ × Int) (store0 : σ)
    (rows : List SourceRecord) (k : Nat)
    (hf : ∀ st c, 0 ≤ (f st c).2 ∧ (f st c).2 ≤ (c.length : Int)) :
    (run_after bs f store0 rows k).inserted_rows
        + (run_after bs f store0 rows k).skipped_rows
      = ((((run_after bs f store0 rows k).calls.map List.length).sum : Nat) : Int)
    ∧ 0 ≤ (run_after bs f store0 rows k).inserted_rows
    ∧ 0 ≤ (run_after bs f store0 rows k).skipped_rows
    ∧ (run_after bs f store0 rows k).inserted_rows
        ≤ (run_after bs f store0 rows (k + 1)).inserted_rows
    ∧ (run_after bs f store0 rows k).skipped_rows
        ≤ (run_after bs f store0 rows (k + 1)).skipped_rows
    ∧ (run_after bs f store0 rows k).total_rows
        ≤ (run_after bs f store0 rows (k + 1)).total_rows
    ∧ (import_run bs f store0 rows).total_rows
      = (import_run bs f store0 rows).inserted_rows
        + (import_run bs f store0 rows).skipped_rows := by
  have i1 : (init_state store0 : RunState σ).inserted_rows = 0 := rfl
  have i2 : (init_state store0 : RunState σ).skipped_rows = 0 := rfl
  have i3 : (init_state store0 : RunState σ).calls = [] := rfl
  have i4 : (init_state store0 : RunState σ).total_rows = 0 := rfl
  have i5 : (init_state store0 : RunState σ).batch = [] := rfl
  have hcons := (import_loop_counter_inv bs f (rows.take k) (init_state store0)).1
  rw [i1, i2, i3] at hcons
  simp only [List.map_nil, List.sum_nil, Nat.cast_zero] at hcons
  have hnn := import_loop_nonneg bs f hf (rows.take k) (init_state store0)
    (le_refl 0) (le_refl 0)
  have hmono := run_after_mono bs f hf store0 rows k
  obtain ⟨hL1, hL2⟩ := import_loop_counter_inv bs f rows (init_state store0)
  rw [i1, i2, i3] at hL1
  rw [i3, i4, i5] at hL2
  simp only [List.map_nil, List.sum_nil, Nat.cast_zero, List.length_nil] at hL1 hL2
  obtain ⟨hF1, hF2, -, -⟩ :=
    import_flush_counter_inv f (import_loop bs f (init_state store0) rows)
  refine ⟨?_, hnn.1, hnn.2, hmono.1, hmono.2.1, hmono.2.2, ?_⟩
  · simp only [run_after]
    omega
  · simp only [import_run] at *
    omega

/-- Witness for C10: a concrete two-record run with batch size 1 and a
loader that always reports zero inserted rows. -/
theorem counter_conservation_witness :
    (run_after 1 (fun (st : Unit) _ => (st, (0 : Int))) ()
          [[("siren", some "1")], [("siren", some "2")]] 1).inserted_rows
        + (run_after 1 (fun (st : Unit) _ => (st, (0 : Int))) ()
            [[("siren", some "1")], [("siren", some "2")]] 1).skipped_rows
      = ((((run_after 1 (fun (st : Unit) _ => (st, (0 : Int))) ()
            [[("siren", some "1")], [("siren", some "2")]] 1).calls.map
            List.length).sum : Nat) : Int)
    ∧ 0 ≤ (run_after 1 (fun (st : Unit) _ => (st, (0 : Int))) ()
          [[("siren", some "1")], [("siren", some "2")]] 1).inserted_rows
    ∧ 0 ≤ (run_after 1 (fun (st : Unit) _ => (st, (0 : Int))) ()
          [[("siren", some "1")], [("siren", some "2")]] 1).skipped_rows
    ∧ (run_after 1 (fun (st : Unit) _ => (st, (0 : Int))) ()
          [[("siren", some "1")], [("siren", some "2")]] 1).inserted_rows
        ≤ (run_after 1 (fun (st : Unit) _ => (st, (0 : Int))) ()
            [[("siren", some "1")], [("siren", some "2")]] (1 + 1)).inserted_rows
    ∧ (run_after 1 (fun (st : Unit) _ => (st, (0 : Int))) ()
          [[("siren", some "1")], [("siren", some "2")]] 1).skipped_rows
        ≤ (run_after 1 (fun (st : Unit) _ => (st, (0 : Int))) ()
            [[("siren", some "1")], [("siren", some "2")]] (1 + 1)).skipped_rows
    ∧ (run_after 1 (fun (st : Unit) _ => (st, (0 : Int))) ()
          [[("siren", some "1")], [("siren", some "2")]] 1).total_rows
        ≤ (run_after 1 (fun (st : Unit) _ => (st, (0 : Int))) ()
            [[("siren", some "1")], [("siren", some "2")]] (1 + 1)).total_rows
    ∧ (import_run 1 (fun (st : Unit) _ => (st, (0 : Int))) ()
          [[("siren", some "1")], [("siren", some "2")]]).total_rows
      = (import_run 1 (fun (st : Unit) _ => (st, (0 : Int))) ()
            [[("siren", some "1")], [("siren", some "2")]]).inserted_rows
        + (import_run 1 (fun (st : Unit) _ => (st, (0 : Int))) ()
            [[("siren", some "1")], [("siren", some "2")]]).skipped_rows :=
  counter_conservation 1 (fun (st : Unit) _ => (st, (0 : Int))) ()
    [[("siren", some "1")], [("siren", some "2")]] 1
    (fun _ c => ⟨le_refl 0, Int.natCast_nonneg c.length⟩)
